import Mathlib

/-!
# Verification of the crash-game backend (`src/main.py`)

A shallow embedding of the single-file FastAPI "aviator" crash game.
The SQLite tables `users`, `bets` and `rounds` are modelled as Lean lists
of rows (rowid / insertion order preserved); Python floats for money,
coefficients and timestamps are modelled as exact rationals `ℚ`; Python's
`round(x, 2)` is modelled by `round2` below.  Each HTTP handler becomes a
pure function from the database state (plus the wall-clock time `now`
where the source reads `time.time()`) to a result together with the new
database state.
-/

namespace Aviator

/-- Python's `round(x, 2)`: round to two decimal places.  (Tie-breaking at
exact half-cents differs between Python's float rounding and `round` on
`ℚ`; no statement below depends on a tie.) -/
def round2 (x : ℚ) : ℚ := ((round (x * 100) : ℤ) : ℚ) / 100

/-- A row of the `users` table: `user_id TEXT PRIMARY KEY, balance REAL`. -/
structure UserRow where
  user_id : String
  balance : ℚ
deriving DecidableEq, Repr

/-- A row of the `bets` table:
`user_id TEXT, amount REAL, round_id INTEGER, cashed_out INTEGER DEFAULT 0,`
`coefficient REAL DEFAULT 1.0`. -/
structure BetRow where
  user_id : String
  amount : ℚ
  round_id : Nat
  cashed_out : Bool
  coefficient : ℚ
deriving DecidableEq, Repr

/-- A row of the `rounds` table:
`id INTEGER PRIMARY KEY AUTOINCREMENT, status TEXT, start_time REAL,`
`crash_point REAL`.  `status` is one of the strings "waiting", "running",
"ended", exactly as stored by the source. -/
structure RoundRow where
  id : Nat
  status : String
  start_time : ℚ
  crash_point : ℚ
deriving DecidableEq, Repr

/-- The whole SQLite database `aviator.db`. -/
structure DB where
  users : List UserRow
  bets : List BetRow
  rounds : List RoundRow
deriving DecidableEq, Repr

/-- The error responses of the API, one constructor per distinct
`{"error": ...}` string returned by the source:
`noActiveRound` = "No active round" / "Ойын жоқ",
`invalidPhase` = "Раунд басталып кетті" / "Кэшаутқа ерте",
`invalidBet` = "Жарамсыз ставка" (covers both amount ≤ 0 and
amount > balance: the source uses a single message for both),
`noActiveBet` = "Ставка жоқ немесе кэшаут жасалды". -/
inductive ApiError where
  | noActiveRound
  | invalidPhase
  | invalidBet
  | noActiveBet
deriving DecidableEq, Repr

/-- `get_user_balance`: `SELECT balance FROM users WHERE user_id = ?`,
`fetchone`, `row[0] if row else 0.0`. -/
def get_user_balance (db : DB) (user_id : String) : ℚ :=
  match db.users.find? (fun u => u.user_id == user_id) with
  | some u => u.balance
  | none => 0

/-- `get_current_round`: `SELECT * FROM rounds WHERE status IN`
`('waiting', 'running') ORDER BY id DESC LIMIT 1` — the row with the
largest `id` among rounds whose status is waiting or running. -/
def get_current_round (db : DB) : Option RoundRow :=
  (db.rounds.filter (fun r => r.status == "waiting" || r.status == "running")).foldl
    (fun acc r => match acc with
      | none => some r
      | some a => if a.id < r.id then some r else some a)
    none

/-- The next `AUTOINCREMENT` id for the `rounds` table. -/
def nextRoundId (db : DB) : Nat :=
  (db.rounds.foldl (fun m r => max m r.id) 0) + 1

/-- `create_new_round`: inserts one round with status "waiting",
`start_time = now + 5` and `crash_point = round(rand, 2)` where `rand` is
the value drawn by `random.uniform(1.5, 5.0)`. -/
def create_new_round (db : DB) (now rand : ℚ) : DB :=
  { db with rounds :=
      db.rounds ++ [⟨nextRoundId db, "waiting", now + 5, round2 rand⟩] }

/-- `update_round_status`: `UPDATE rounds SET status = ? WHERE id = ?`. -/
def update_round_status (db : DB) (round_id : Nat) (status : String) : DB :=
  { db with rounds :=
      db.rounds.map (fun r => if r.id = round_id then { r with status := status } else r) }

/-- `GET /get_balance`: reads the balance, returns `round(bal, 2)`,
mutates nothing. -/
def get_balance (db : DB) (user_id : String) : ℚ × DB :=
  (round2 (get_user_balance db user_id), db)

/-- `POST /place_bet`.  Mirrors the source line by line: no current round
→ error; status ≠ "waiting" → error; `amount <= 0 or amount > balance`
→ error; otherwise `INSERT INTO bets (user_id, amount, round_id)` (the
schema defaults fill `cashed_out = 0`, `coefficient = 1.0`) and
`UPDATE users SET balance = balance - ? WHERE user_id = ?`. -/
def place_bet (db : DB) (user_id : String) (amount : ℚ) :
    Except ApiError Unit × DB :=
  match get_current_round db with
  | none => (.error .noActiveRound, db)
  | some r =>
    if r.status ≠ "waiting" then (.error .invalidPhase, db)
    else
      let user_balance := get_user_balance db user_id
      if amount ≤ 0 ∨ user_balance < amount then (.error .invalidBet, db)
      else
        (.ok (),
          { db with
            bets := db.bets ++ [⟨user_id, amount, r.id, false, 1⟩],
            users := db.users.map (fun u =>
              if u.user_id = user_id then { u with balance := u.balance - amount } else u) })

/-- `POST /cashout`.  Mirrors the source: no current round → error;
status ≠ "running" → error; `current_coef = round(1.0 + (now - start_time)`
`* 0.1, 2)`; `SELECT amount, cashed_out FROM bets WHERE user_id = ? AND`
`round_id = ?` `fetchone` (first matching row in insertion order); missing
or already cashed-out row → error; otherwise `win = round(amount *`
`current_coef, 2)`, `UPDATE users SET balance = balance + win`,
`UPDATE bets SET cashed_out = 1, coefficient = current_coef` on every row
matching `(user_id, round_id)`.  Returns `win`. -/
def cashout (db : DB) (user_id : String) (now : ℚ) :
    Except ApiError ℚ × DB :=
  match get_current_round db with
  | none => (.error .noActiveRound, db)
  | some r =>
    if r.status ≠ "running" then (.error .invalidPhase, db)
    else
      let current_coef := round2 (1 + (now - r.start_time) * (1/10))
      match db.bets.find? (fun b => b.user_id == user_id && b.round_id == r.id) with
      | none => (.error .noActiveBet, db)
      | some row =>
        if row.cashed_out then (.error .noActiveBet, db)
        else
          let win := round2 (row.amount * current_coef)
          (.ok win,
            { db with
              users := db.users.map (fun u =>
                if u.user_id = user_id then { u with balance := u.balance + win } else u),
              bets := db.bets.map (fun b =>
                if b.user_id = user_id ∧ b.round_id = r.id then
                  { b with cashed_out := true, coefficient := current_coef }
                else b) })

/-! ## The engine tick loop (`game_loop`)

The background task is modelled as a small-step machine over the control
state of one `while True` cycle.  `LoopPhase.waiting` is the
`while time.time() < start_time` loop, `LoopPhase.running c` is the
`while coef < crash_point` flight loop carrying the accumulated `coef`,
and `LoopPhase.ended c` is the post-flight cooldown carrying the final
coefficient.  One `game_loop_step` is one iteration of the innermost
active loop (or, from `ended`, the wrap-around that calls
`create_new_round` for the next cycle); `t` is the value of `time.time()`
at that iteration and `rand` the next `random.uniform(1.5, 5.0)` draw. -/

/-- Control location of the `game_loop` task within one round cycle. -/
inductive LoopPhase where
  | waiting
  | running (coef : ℚ)
  | ended (coef : ℚ)
deriving DecidableEq, Repr

/-- The loop-local state of `game_loop`: the current round's row fields
(`round_id`, `start_time`, `crash_point`) plus the control location. -/
structure LoopState where
  round_id : Nat
  phase : LoopPhase
  start_time : ℚ
  crash_point : ℚ
deriving DecidableEq, Repr

/-- One small step of `game_loop`:
waiting and `t < start_time` → keep waiting (broadcast countdown);
waiting and `t ≥ start_time` → `update_round_status(id, "running")`,
`start_time = time.time()`, `coef = 1.0`;
running with `coef < crash_point` → `coef += 0.01` (broadcast);
running with `coef ≥ crash_point` → `update_round_status(id, "ended")`;
ended → after the 3 s cooldown, `create_new_round()` starts the next
cycle: a fresh round id, status waiting, `start_time = t + 5`,
`crash_point = round(rand, 2)`. -/
def game_loop_step (s : LoopState) (t rand : ℚ) : LoopState :=
  match s.phase with
  | .waiting =>
    if t < s.start_time then s
    else { s with phase := .running 1, start_time := t }
  | .running c =>
    if c < s.crash_point then { s with phase := .running (c + 1/100) }
    else { s with phase := .ended c }
  | .ended _ =>
    { round_id := s.round_id + 1, phase := .waiting,
      start_time := t + 5, crash_point := round2 rand }

/-- Rank of a phase in the lifecycle order Waiting → Running → Ended. -/
def phaseRank : LoopPhase → Nat
  | .waiting => 0
  | .running _ => 1
  | .ended _ => 2

/-- The coefficient broadcast by the `i`-th iteration (1-based) of the
flight loop: `coef` starts at 1.0 and gains 0.01 before each broadcast,
so the broadcast value is `round(1 + i * 0.01, 2)`. -/
def broadcastCoef (i : Nat) : ℚ := round2 (1 + (i : ℚ) / 100)

/-- The wall-clock instant of the `i`-th flight broadcast under the
source's own schedule (`await asyncio.sleep(0.05)` after each broadcast):
the first fires immediately at `actual_start`, the `i`-th at
`actual_start + (i - 1) * 0.05`. -/
def broadcastTime (actual_start : ℚ) (i : Nat) : ℚ :=
  actual_start + ((i : ℚ) - 1) * (1/20)

/-- The growth function used by cashout pricing:
`coefficient(t) = 1.0 + (t - actual_start) * 0.1`. -/
def engineCoefficient (actual_start t : ℚ) : ℚ :=
  1 + (t - actual_start) * (1/10)

/-- A state in which user "u" (balance 100) already holds a bet of 10 on
the current round 1, which is still waiting. -/
def dbDup : DB := ⟨[⟨"u", 100⟩], [⟨"u", 10, 1, false, 1⟩], [⟨1, "waiting", 5, 3⟩]⟩

/-- Mid-flight state: user "u" (balance 0) holds an uncashed bet of 1000
on round 1, running since `t = 0` with crash point 5. -/
def dbC3 : DB := ⟨[⟨"u", 0⟩], [⟨"u", 1000, 1, false, 1⟩], [⟨1, "running", 0, 5⟩]⟩

/-- Mid-flight state for the witnesses: round 1 running since `t = 0`
with crash point 3; user "u" (balance 80) holds an uncashed bet of 20. -/
def roundRW : RoundRow := ⟨1, "running", 0, 3⟩

/-- The bet row of `dbRW`. -/
def betRW : BetRow := ⟨"u", 20, 1, false, 1⟩

/-- The user row of `dbRW`. -/
def userRW : UserRow := ⟨"u", 80⟩

/-- The mid-flight witness state. -/
def dbRW : DB := ⟨[userRW], [betRW], [roundRW]⟩

/-- Waiting-phase state: round 1 waiting (starts at `t = 5`), user "u"
with balance 100 and no bets. -/
def roundW4 : RoundRow := ⟨1, "waiting", 5, 3⟩

/-- The waiting-phase witness state. -/
def dbW4 : DB := ⟨[⟨"u", 100⟩], [], [roundW4]⟩

/-- Cooldown state: the only round is ended, so no round is current. -/
def dbEnded : DB := ⟨[⟨"u", 80⟩], [], [⟨1, "ended", 0, 2⟩]⟩

/-- State far into a flight: round 1 running since `t = 0` with crash
point 2.0, user "u" holding an uncashed bet of 100. -/
def dbC10 : DB := ⟨[⟨"u", 0⟩], [⟨"u", 100, 1, false, 1⟩], [⟨1, "running", 0, 2⟩]⟩

/-! ## Helper lemmas -/

/-- Rounding to two decimals preserves nonnegativity. -/
lemma round2_nonneg {x : ℚ} (hx : 0 ≤ x) : 0 ≤ round2 x := by
  unfold round2
  have h : (0 : ℤ) ≤ round (x * 100) := by
    rw [round_eq]
    have : (0 : ℚ) ≤ x * 100 + 1 / 2 := by positivity
    exact Int.le_floor.mpr (by exact_mod_cast this)
  positivity

/-- The balance-updating `UPDATE users` map commutes with the
`SELECT ... WHERE user_id = ?` lookup. -/
lemma find?_balance_map (l : List UserRow) (uid : String) (f : ℚ → ℚ) :
    (l.map (fun u => if u.user_id = uid then { u with balance := f u.balance } else u)).find?
        (fun u => u.user_id == uid)
      = (l.find? (fun u => u.user_id == uid)).map
          (fun u => { u with balance := f u.balance }) := by
  induction l with
  | nil => rfl
  | cons a l ih =>
    by_cases h : a.user_id = uid
    · simp [List.find?_cons, h]
    · simp [List.find?_cons, h, ih]

/-- The `UPDATE bets SET cashed_out = 1, coefficient = ?` map commutes
with the `SELECT ... WHERE user_id = ? AND round_id = ?` lookup. -/
lemma find?_bets_map (l : List BetRow) (uid : String) (rid : Nat) (c : ℚ) :
    (l.map (fun b => if b.user_id = uid ∧ b.round_id = rid then
        { b with cashed_out := true, coefficient := c } else b)).find?
        (fun b => b.user_id == uid && b.round_id == rid)
      = (l.find? (fun b => b.user_id == uid && b.round_id == rid)).map
          (fun b => { b with cashed_out := true, coefficient := c }) := by
  induction l with
  | nil => rfl
  | cons a l ih =>
    by_cases h : a.user_id = uid ∧ a.round_id = rid
    · simp [List.find?_cons, h, h.1, h.2]
    · rcases not_and_or.mp h with h1 | h1 <;>
        simp [List.find?_cons, h, h1, ih]

/-- With unique `user_id`s (the `users` PRIMARY KEY), any member of the
table is the row found by the lookup on its own id. -/
lemma mem_unique_find? (l : List UserRow)
    (hu : l.Pairwise (fun a b => a.user_id ≠ b.user_id))
    (u : UserRow) (hmem : u ∈ l) :
    l.find? (fun x => x.user_id == u.user_id) = some u := by
  induction l with
  | nil => simp at hmem
  | cons a l ih =>
    rcases List.mem_cons.mp hmem with rfl | hmem
    · simp [List.find?_cons]
    · have hne : a.user_id ≠ u.user_id :=
        (List.pairwise_cons.mp hu).1 u hmem
      simp [List.find?_cons, hne, ih (List.pairwise_cons.mp hu).2 hmem]

/-- Specialization of `find?_balance_map` to the credit map of `cashout`. -/
lemma find?_balance_map_add (l : List UserRow) (uid : String) (d : ℚ) :
    (l.map (fun u => if u.user_id = uid then { u with balance := u.balance + d } else u)).find?
        (fun u => u.user_id == uid)
      = (l.find? (fun u => u.user_id == uid)).map
          (fun u => { u with balance := u.balance + d }) :=
  find?_balance_map l uid (· + d)

/-- Specialization of `find?_balance_map` to the debit map of `place_bet`. -/
lemma find?_balance_map_sub (l : List UserRow) (uid : String) (d : ℚ) :
    (l.map (fun u => if u.user_id = uid then { u with balance := u.balance - d } else u)).find?
        (fun u => u.user_id == uid)
      = (l.find? (fun u => u.user_id == uid)).map
          (fun u => { u with balance := u.balance - d }) :=
  find?_balance_map l uid (· - d)

/-- Full characterization of a successful `cashout`: with a current
running round and an uncashed first bet row for `(user_id, round_id)`,
the handler returns `win = round(amount * round(1 + (now - start) * 0.1,`
`2), 2)`, credits `win` to every `users` row of that id, and marks every
matching bet row cashed out with the rounded coefficient stored. -/
lemma cashout_of_success (db : DB) (user_id : String) (now : ℚ)
    (r : RoundRow) (row : BetRow)
    (h1 : get_current_round db = some r) (h2 : r.status = "running")
    (h3 : db.bets.find? (fun b => b.user_id == user_id && b.round_id == r.id) = some row)
    (h4 : row.cashed_out = false) :
    cashout db user_id now =
      (.ok (round2 (row.amount * round2 (1 + (now - r.start_time) * (1/10)))),
       { db with
         users := db.users.map (fun u =>
           if u.user_id = user_id then
             { u with balance := u.balance
                 + round2 (row.amount * round2 (1 + (now - r.start_time) * (1/10))) }
           else u),
         bets := db.bets.map (fun b =>
           if b.user_id = user_id ∧ b.round_id = r.id then
             { b with cashed_out := true, coefficient := round2 (1 + (now - r.start_time) * (1/10)) }
           else b) }) := by
  unfold cashout
  rw [h1]
  simp only [h2, ne_eq, not_true_eq_false, if_false, ite_false]
  rw [h3]
  simp only [h4, Bool.false_eq_true, if_false, ite_false]

/-- `cashout` on a state whose first bet row for `(user_id, round_id)` is
already cashed out fails with `noActiveBet` and returns the state
unchanged. -/
lemma cashout_already_cashed (db : DB) (uid : String) (now : ℚ)
    (r : RoundRow) (row : BetRow)
    (h1 : get_current_round db = some r) (h2 : r.status = "running")
    (h3 : db.bets.find? (fun b => b.user_id == uid && b.round_id == r.id) = some row)
    (h4 : row.cashed_out = true) :
    cashout db uid now = (.error .noActiveBet, db) := by
  unfold cashout
  rw [h1]
  simp only [h2, ne_eq, not_true_eq_false, ite_false]
  rw [h3]
  simp only [h4, if_true, ite_true]

/-- Full characterization of a successful `place_bet`: the bet row is
appended and every `users` row of that id is debited by `amount`. -/
lemma place_bet_of_success (db : DB) (user_id : String) (amount : ℚ) (r : RoundRow)
    (h1 : get_current_round db = some r) (h2 : r.status = "waiting")
    (h3 : ¬(amount ≤ 0 ∨ get_user_balance db user_id < amount)) :
    place_bet db user_id amount =
      (.ok (),
       { db with
         bets := db.bets ++ [⟨user_id, amount, r.id, false, 1⟩],
         users := db.users.map (fun u =>
           if u.user_id = user_id then { u with balance := u.balance - amount } else u) }) := by
  unfold place_bet
  rw [h1]
  simp only [h2, ne_eq, not_true_eq_false, ite_false]
  rw [if_neg h3]

/-- Any `place_bet` either returns the state unchanged or is the
successful debit-and-insert with a validated amount. -/
lemma place_bet_state_cases (db : DB) (uid : String) (amount : ℚ) :
    (place_bet db uid amount).2 = db ∨
    (¬(amount ≤ 0 ∨ get_user_balance db uid < amount) ∧
     (place_bet db uid amount).2.users
       = db.users.map (fun u =>
           if u.user_id = uid then { u with balance := u.balance - amount } else u)) := by
  rcases hcur : get_current_round db with _ | r
  · left; unfold place_bet; rw [hcur]
  · by_cases hw : r.status = "waiting"
    · by_cases hc : amount ≤ 0 ∨ get_user_balance db uid < amount
      · left
        unfold place_bet
        rw [hcur]
        simp only [hw, ne_eq, not_true_eq_false, ite_false]
        rw [if_pos hc]
      · right
        exact ⟨hc, by rw [place_bet_of_success db uid amount r hcur hw hc]⟩
    · left
      unfold place_bet
      rw [hcur]
      dsimp only
      rw [if_pos hw]

/-- Any `cashout` either returns the state unchanged or is the successful
credit of the computed win for the first matching bet row. -/
lemma cashout_state_cases (db : DB) (uid : String) (now : ℚ) :
    (cashout db uid now).2 = db ∨
    (∃ r row, get_current_round db = some r ∧ r.status = "running" ∧
      db.bets.find? (fun b => b.user_id == uid && b.round_id == r.id) = some row ∧
      (cashout db uid now).2.users
        = db.users.map (fun u =>
            if u.user_id = uid then
              { u with balance := u.balance
                  + round2 (row.amount * round2 (1 + (now - r.start_time) * (1/10))) }
            else u)) := by
  rcases hcur : get_current_round db with _ | r
  · left; unfold cashout; rw [hcur]
  · by_cases hrun : r.status = "running"
    · rcases hfind : db.bets.find? (fun b => b.user_id == uid && b.round_id == r.id) with _ | row
      · left
        unfold cashout
        rw [hcur]
        simp only [hrun, ne_eq, not_true_eq_false, ite_false]
        rw [hfind]
      · by_cases hco : row.cashed_out = true
        · left
          rw [cashout_already_cashed db uid now r row hcur hrun hfind hco]
        · have hco' : row.cashed_out = false := by simpa using hco
          right
          refine ⟨r, row, rfl, hrun, ?_, ?_⟩
          · exact hfind
          · rw [cashout_of_success db uid now r row hcur hrun hfind hco']
    · left
      unfold cashout
      rw [hcur]
      dsimp only
      rw [if_pos hrun]

/-- Rounding to two decimals is monotone. -/
lemma round2_mono {x y : ℚ} (h : x ≤ y) : round2 x ≤ round2 y := by
  unfold round2
  have hr : round (x * 100) ≤ round (y * 100) := by
    rw [round_eq, round_eq]
    exact Int.floor_mono (by linarith)
  have hc : ((round (x * 100) : ℤ) : ℚ) ≤ ((round (y * 100) : ℤ) : ℚ) := by
    exact_mod_cast hr
  linarith

/-! ## Claim theorems -/

/-- C1: the spec requires a second `place_bet` by the same user in the
same round to fail with `DuplicateBet`, leaving balance and bet book
unchanged.  The source has no duplicate check at all: on `dbDup`, where
user "u" already holds a bet on round 1, a second `place_bet` succeeds,
debits the balance again (100 − 10 = 90) and leaves two bet rows for
`("u", 1)` in the book. -/
theorem place_bet_accepts_duplicate :
    (place_bet dbDup "u" 10).1 = .ok () ∧
    get_user_balance (place_bet dbDup "u" 10).2 "u" = 90 ∧
    ((place_bet dbDup "u" 10).2.bets.filter
        (fun b => b.user_id == "u" && b.round_id == 1)).length = 2 := by
  refine ⟨?_, ?_, ?_⟩ <;>
    norm_num [place_bet, get_current_round, get_user_balance, dbDup]

/-- C2: the tick-loop coefficient and the cashout pricing formula are
claimed to agree at every instant of a Running phase.  They never do: the
`i`-th flight broadcast (any `i ≥ 1`) carries `round(1 + i·0.01, 2)`
(growth 0.01 per 50 ms, i.e. 0.2/s), while the pricing formula
`coefficient(t) = 1 + (t − actual_start)·0.1` evaluated at that
broadcast's own instant gives a strictly smaller value — the two
computations drift apart from the very first tick. -/
theorem tick_coef_differs_from_pricing_formula (a : ℚ) (i : ℕ) (hi : 1 ≤ i) :
    broadcastCoef i ≠ round2 (engineCoefficient a (broadcastTime a i)) := by
  have hkey : engineCoefficient a (broadcastTime a i) = 1 + ((i : ℚ) - 1) / 200 := by
    unfold engineCoefficient broadcastTime; ring
  have hL : broadcastCoef i = (100 + (i : ℚ)) / 100 := by
    unfold broadcastCoef round2
    have h1 : (1 + (i : ℚ) / 100) * 100 = ((100 + i : ℤ) : ℚ) := by push_cast; ring
    rw [h1, round_intCast]
    push_cast; ring
  have hR : (round ((1 + ((i : ℚ) - 1) / 200) * 100) : ℚ)
      ≤ (100 + ((i : ℚ) - 1) / 2) + 1 / 2 := by
    have h2 : (1 + ((i : ℚ) - 1) / 200) * 100 = 100 + ((i : ℚ) - 1) / 2 := by ring
    rw [h2]
    have habs := abs_sub_round (100 + ((i : ℚ) - 1) / 2)
    rw [abs_le] at habs
    linarith [habs.1]
  have hi' : (1 : ℚ) ≤ (i : ℚ) := by exact_mod_cast hi
  rw [hL, hkey]
  unfold round2
  intro heq
  have h3 : (100 + (i : ℚ))
      = ((round ((1 + ((i : ℚ) - 1) / 200) * 100) : ℤ) : ℚ) := by
    have h100 : (100 : ℚ) ≠ 0 := by norm_num
    have h := congrArg (fun x : ℚ => x * 100) heq
    simp only [] at h
    rw [div_mul_cancel₀ _ h100, div_mul_cancel₀ _ h100] at h
    exact h
  linarith [hR, h3]

/-- Witness for C2 at the 21st broadcast (1 s into the flight): the tick
loop shows 1.21 while the pricing formula gives 1.10. -/
theorem tick_coef_differs_witness :
    (1 : ℕ) ≤ 21 ∧
    broadcastCoef 21 ≠ round2 (engineCoefficient 0 (broadcastTime 0 21)) :=
  ⟨by norm_num, tick_coef_differs_from_pricing_formula 0 21 (by norm_num)⟩

/-- C3 counterexample: the claim computes the win as
`round(amount * coefficient(t), 2)` with the unrounded growth function
`coefficient(t) = 1 + (t - actual_start) * 0.1`.  The code first rounds
the coefficient to 2 decimals and then multiplies: at `t = 0.07` with a
bet of 1000, the code pays `round(1000 * 1.01, 2) = 1010`, while the
claimed formula gives `round(1000 * 1.007, 2) = 1007`. -/
theorem cashout_win_double_rounding :
    (cashout dbC3 "u" (7/100)).1 = .ok 1010 ∧
    round2 ((1000 : ℚ) * engineCoefficient 0 (7/100)) = 1007 ∧
    (1010 : ℚ) ≠ 1007 := by
  refine ⟨?_, ?_, by norm_num⟩
  · norm_num [cashout, get_current_round, dbC3, round2, round_eq]
  · norm_num [engineCoefficient, round2, round_eq]

/-- C3 (amended): on a successful cashout the win equals
`round(amount * c, 2)` where `c = round(coefficient(now), 2)` is the
growth function value rounded to 2 decimals before multiplying; the win
is credited to the user's balance and the bet row is marked cashed out
with `c` stored. -/
theorem cashout_success_win_credit (db : DB) (uid : String) (now : ℚ)
    (r : RoundRow) (row : BetRow) (urow : UserRow)
    (h1 : get_current_round db = some r) (h2 : r.status = "running")
    (h3 : db.bets.find? (fun b => b.user_id == uid && b.round_id == r.id) = some row)
    (h4 : row.cashed_out = false)
    (h5 : db.users.find? (fun u => u.user_id == uid) = some urow) :
    (cashout db uid now).1
      = .ok (round2 (row.amount * round2 (engineCoefficient r.start_time now))) ∧
    get_user_balance (cashout db uid now).2 uid
      = get_user_balance db uid
        + round2 (row.amount * round2 (engineCoefficient r.start_time now)) ∧
    (cashout db uid now).2.bets.find? (fun b => b.user_id == uid && b.round_id == r.id)
      = some { row with cashed_out := true,
                        coefficient := round2 (engineCoefficient r.start_time now) } := by
  simp only [engineCoefficient]
  rw [cashout_of_success db uid now r row h1 h2 h3 h4]
  refine ⟨rfl, ?_, ?_⟩
  · unfold get_user_balance
    rw [find?_balance_map_add, h5]
    rfl
  · show (db.bets.map _).find? _ = _
    rw [find?_bets_map, h3]
    rfl

/-- Witness for C3 (amended) on `dbRW` at `t = 10`: coefficient 2.0,
win 40, balance 80 + 40, bet marked cashed out with 2.0 stored. -/
theorem cashout_success_win_credit_witness :
    (cashout dbRW "u" 10).1
      = .ok (round2 (betRW.amount * round2 (engineCoefficient roundRW.start_time 10))) ∧
    get_user_balance (cashout dbRW "u" 10).2 "u"
      = get_user_balance dbRW "u"
        + round2 (betRW.amount * round2 (engineCoefficient roundRW.start_time 10)) ∧
    (cashout dbRW "u" 10).2.bets.find? (fun b => b.user_id == "u" && b.round_id == roundRW.id)
      = some { betRW with cashed_out := true,
                          coefficient := round2 (engineCoefficient roundRW.start_time 10) } :=
  cashout_success_win_credit dbRW "u" 10 roundRW betRW userRW rfl rfl rfl rfl rfl

/-- C5: once a cashout for `(user, round)` has succeeded, a further
cashout attempt by the same user while that round is still the current
running round fails with `NoActiveBet` and returns the post-cashout state
unchanged — the win is credited exactly once. -/
theorem cashout_second_attempt_rejected (db : DB) (uid : String) (now now2 : ℚ)
    (r : RoundRow) (row : BetRow)
    (h1 : get_current_round db = some r) (h2 : r.status = "running")
    (h3 : db.bets.find? (fun b => b.user_id == uid && b.round_id == r.id) = some row)
    (h4 : row.cashed_out = false) :
    (cashout db uid now).1
      = .ok (round2 (row.amount * round2 (1 + (now - r.start_time) * (1/10)))) ∧
    cashout (cashout db uid now).2 uid now2
      = (.error .noActiveBet, (cashout db uid now).2) := by
  rw [cashout_of_success db uid now r row h1 h2 h3 h4]
  refine ⟨rfl, ?_⟩
  apply cashout_already_cashed _ _ _ r
    ({ row with cashed_out := true, coefficient := round2 (1 + (now - r.start_time) * (1/10)) })
  · exact h1
  · exact h2
  · show (db.bets.map _).find? _ = _
    rw [find?_bets_map, h3]
    rfl
  · rfl

/-- Witness for C5 on `dbRW`: cashout at `t = 10` succeeds with win 40;
an immediate retry at `t = 11` fails with `noActiveBet` and changes
nothing. -/
theorem cashout_second_attempt_rejected_witness :
    (cashout dbRW "u" 10).1
      = .ok (round2 (betRW.amount * round2 (1 + ((10 : ℚ) - roundRW.start_time) * (1/10)))) ∧
    cashout (cashout dbRW "u" 10).2 "u" 11
      = (.error .noActiveBet, (cashout dbRW "u" 10).2) :=
  cashout_second_attempt_rejected dbRW "u" 10 11 roundRW betRW rfl rfl rfl rfl

/-- C4: a bet accepted by `place_bet` (current round waiting, 0 < amount
≤ balance) debits exactly `amount` from the user's balance and records a
bet row for `(user_id, round_id)` with `cashed_out = false`. -/
theorem place_bet_debits_and_records (db : DB) (uid : String) (amount : ℚ)
    (r : RoundRow)
    (h1 : get_current_round db = some r) (h2 : r.status = "waiting")
    (h3 : 0 < amount) (h4 : amount ≤ get_user_balance db uid) :
    (place_bet db uid amount).1 = .ok () ∧
    get_user_balance (place_bet db uid amount).2 uid
      = get_user_balance db uid - amount ∧
    ∃ b ∈ (place_bet db uid amount).2.bets,
      b.user_id = uid ∧ b.round_id = r.id ∧ b.amount = amount ∧ b.cashed_out = false := by
  have hcond : ¬(amount ≤ 0 ∨ get_user_balance db uid < amount) :=
    not_or.mpr ⟨not_le.mpr h3, not_lt.mpr h4⟩
  have hmain : place_bet db uid amount =
      (.ok (),
       { db with
         bets := db.bets ++ [⟨uid, amount, r.id, false, 1⟩],
         users := db.users.map (fun u =>
           if u.user_id = uid then { u with balance := u.balance - amount } else u) }) := by
    unfold place_bet
    rw [h1]
    simp only [h2, ne_eq, not_true_eq_false, ite_false]
    rw [if_neg hcond]
  rw [hmain]
  refine ⟨rfl, ?_, ?_⟩
  · cases hfind : db.users.find? (fun u => u.user_id == uid) with
    | none =>
      exfalso
      have hz : get_user_balance db uid = 0 := by
        unfold get_user_balance; rw [hfind]
      rw [hz] at h4
      exact absurd (lt_of_lt_of_le h3 h4) (lt_irrefl 0)
    | some u0 =>
      unfold get_user_balance
      rw [find?_balance_map_sub, hfind]
      rfl
  · exact ⟨⟨uid, amount, r.id, false, 1⟩, by simp, rfl, rfl, rfl, rfl⟩

/-- Witness for C4 on `dbW4`: a bet of 20 succeeds, the balance becomes
100 − 20 and an uncashed bet row for `("u", 1)` is recorded. -/
theorem place_bet_debits_and_records_witness :
    (place_bet dbW4 "u" 20).1 = .ok () ∧
    get_user_balance (place_bet dbW4 "u" 20).2 "u"
      = get_user_balance dbW4 "u" - 20 ∧
    ∃ b ∈ (place_bet dbW4 "u" 20).2.bets,
      b.user_id = "u" ∧ b.round_id = roundW4.id ∧ b.amount = 20 ∧ b.cashed_out = false :=
  place_bet_debits_and_records dbW4 "u" 20 roundW4 rfl rfl (by norm_num)
    (by norm_num [get_user_balance, dbW4])

/-- C6 counterexample: during the Ended cooldown the latest round has
status "ended", so `get_current_round` finds no round at all and cashout
fails with the no-active-round error, not with `InvalidPhase` as the
claim demands for that phase. -/
theorem cashout_during_ended_not_invalid_phase :
    cashout dbEnded "u" 0 = (.error .noActiveRound, dbEnded) ∧
    ApiError.noActiveRound ≠ ApiError.invalidPhase := by
  exact ⟨rfl, by decide⟩

/-- C6 (amended): when a current round exists, `place_bet` fails with
`InvalidPhase` if its phase is not Waiting and `cashout` fails with
`InvalidPhase` if its phase is not Running, each leaving the state
unchanged; when no round is in Waiting or Running (in particular during
the Ended cooldown) both fail with `NoActiveRound`, also leaving the
state unchanged. -/
theorem phase_gating (db : DB) (uid : String) (amount now : ℚ) :
    (∀ r, get_current_round db = some r →
      (r.status ≠ "waiting" → place_bet db uid amount = (.error .invalidPhase, db)) ∧
      (r.status ≠ "running" → cashout db uid now = (.error .invalidPhase, db))) ∧
    (get_current_round db = none →
      place_bet db uid amount = (.error .noActiveRound, db) ∧
      cashout db uid now = (.error .noActiveRound, db)) := by
  constructor
  · intro r hr
    constructor
    · intro hw
      unfold place_bet
      rw [hr]
      dsimp only
      rw [if_pos hw]
    · intro hrun
      unfold cashout
      rw [hr]
      dsimp only
      rw [if_pos hrun]
  · intro hn
    constructor
    · unfold place_bet; rw [hn]
    · unfold cashout; rw [hn]

/-- Witness for C6 (amended): betting on a running round and cashing out
on a waiting round both report `invalidPhase`; betting during the Ended
cooldown reports `noActiveRound`. -/
theorem phase_gating_witness :
    place_bet dbRW "u" 5 = (.error .invalidPhase, dbRW) ∧
    cashout dbW4 "u" 0 = (.error .invalidPhase, dbW4) ∧
    place_bet dbEnded "u" 5 = (.error .noActiveRound, dbEnded) :=
  ⟨((phase_gating dbRW "u" 5 0).1 roundRW rfl).1 (by decide),
   ((phase_gating dbW4 "u" 0 0).1 roundW4 rfl).2 (by decide),
   ((phase_gating dbEnded "u" 5 0).2 rfl).1⟩

/-- C7: a `place_bet` whose amount is non-positive or exceeds the user's
current balance is rejected with an error in every phase, and the state
(balances and bet book alike) is returned unchanged. -/
theorem place_bet_invalid_amount_rejected (db : DB) (uid : String) (amount : ℚ)
    (h : amount ≤ 0 ∨ get_user_balance db uid < amount) :
    ∃ e, place_bet db uid amount = (.error e, db) := by
  rcases hcur : get_current_round db with _ | r
  · refine ⟨.noActiveRound, ?_⟩
    unfold place_bet; rw [hcur]
  · by_cases hw : r.status = "waiting"
    · refine ⟨.invalidBet, ?_⟩
      unfold place_bet
      rw [hcur]
      simp only [hw, ne_eq, not_true_eq_false, ite_false]
      rw [if_pos h]
    · refine ⟨.invalidPhase, ?_⟩
      unfold place_bet
      rw [hcur]
      dsimp only
      rw [if_pos hw]

/-- Witness for C7: a zero-amount bet on the waiting state `dbW4` is
rejected with the state unchanged. -/
theorem place_bet_invalid_amount_rejected_witness :
    ∃ e, place_bet dbW4 "u" 0 = (.error e, dbW4) :=
  place_bet_invalid_amount_rejected dbW4 "u" 0 (Or.inl (by norm_num))

/-- C8: from any data-model-conformant state with all balances
nonnegative (unique `users` rows per the PRIMARY KEY, nonnegative bet
stakes, and a clock not before the running round's start), each of
`place_bet`, `cashout` and `get_balance` — successful or rejected —
leaves every balance nonnegative. -/
theorem validated_ops_keep_balances_nonneg (db : DB) (uid : String) (amount now : ℚ)
    (huniq : db.users.Pairwise (fun a b => a.user_id ≠ b.user_id))
    (hbal : ∀ u ∈ db.users, 0 ≤ u.balance)
    (hamt : ∀ b ∈ db.bets, 0 ≤ b.amount)
    (htime : ∀ r, get_current_round db = some r → r.status = "running" → r.start_time ≤ now) :
    (∀ u ∈ (place_bet db uid amount).2.users, 0 ≤ u.balance) ∧
    (∀ u ∈ (cashout db uid now).2.users, 0 ≤ u.balance) ∧
    (∀ u ∈ (get_balance db uid).2.users, 0 ≤ u.balance) := by
  refine ⟨?_, ?_, hbal⟩
  · rcases place_bet_state_cases db uid amount with hsame | ⟨hc, husers⟩
    · rw [hsame]; exact hbal
    · rw [husers]
      intro u hu
      rcases List.mem_map.mp hu with ⟨u0, hu0, rfl⟩
      by_cases heq : u0.user_id = uid
      · push_neg at hc
        have hfind := mem_unique_find? db.users huniq u0 hu0
        have hbal0 : get_user_balance db uid = u0.balance := by
          unfold get_user_balance
          rw [← heq, hfind]
        have hle : amount ≤ u0.balance := hbal0 ▸ hc.2
        simp only [heq, if_true, ite_true]
        exact sub_nonneg.mpr hle
      · simp only [heq, if_false, ite_false]
        exact hbal u0 hu0
  · rcases cashout_state_cases db uid now with hsame | ⟨r, row, hcur, hrun, hfind, husers⟩
    · rw [hsame]; exact hbal
    · rw [husers]
      intro u hu
      rcases List.mem_map.mp hu with ⟨u0, hu0, rfl⟩
      by_cases heq : u0.user_id = uid
      · have hrow : row ∈ db.bets := List.mem_of_find?_eq_some hfind
        have hamt0 : 0 ≤ row.amount := hamt row hrow
        have hdt : r.start_time ≤ now := htime r hcur hrun
        have hcoef : (0:ℚ) ≤ round2 (1 + (now - r.start_time) * (1/10)) :=
          round2_nonneg (by linarith)
        have hwin : (0:ℚ) ≤ round2 (row.amount * round2 (1 + (now - r.start_time) * (1/10))) :=
          round2_nonneg (mul_nonneg hamt0 hcoef)
        simp only [heq, if_true, ite_true]
        exact add_nonneg (hbal u0 hu0) hwin
      · simp only [heq, if_false, ite_false]
        exact hbal u0 hu0

/-- Witness for C8 on `dbRW`: after a bet of 20 and after a cashout at
`t = 10`, the sole balance stays nonnegative. -/
theorem validated_ops_keep_balances_nonneg_witness :
    (∀ u ∈ (place_bet dbRW "u" 20).2.users, 0 ≤ u.balance) ∧
    (∀ u ∈ (cashout dbRW "u" 10).2.users, 0 ≤ u.balance) ∧
    (∀ u ∈ (get_balance dbRW "u").2.users, 0 ≤ u.balance) :=
  validated_ops_keep_balances_nonneg dbRW "u" 20 10
    (by simp [dbRW])
    (by norm_num [dbRW, userRW])
    (by norm_num [dbRW, betRW])
    (by
      intro r hr _
      simp only [get_current_round, dbRW, roundRW] at hr
      norm_num at hr
      rw [← hr]
      norm_num)

/-- C9: each cycle's `create_new_round` appends exactly one round, in
status "waiting", with `scheduled_start = now + 5` and
`crash_point = round(rand, 2)`, which lies in [1.5, 5] whenever the draw
does; `update_round_status` (the loop's only round mutation) never
touches an id or a crash point; and one `game_loop` step that stays on
the same round moves its phase forward by at most one stage of
Waiting → Running → Ended, never backward, preserving `crash_point`,
while the step out of Ended starts exactly one fresh waiting round with
the next id. -/
theorem round_lifecycle (db : DB) (now rand : ℚ) (rid : Nat) (st : String)
    (s : LoopState) (t : ℚ) :
    (create_new_round db now rand).rounds
      = db.rounds ++ [⟨nextRoundId db, "waiting", now + 5, round2 rand⟩] ∧
    (3/2 ≤ rand → rand ≤ 5 → 3/2 ≤ round2 rand ∧ round2 rand ≤ 5) ∧
    (update_round_status db rid st).rounds.map (fun r => (r.id, r.crash_point))
      = db.rounds.map (fun r => (r.id, r.crash_point)) ∧
    ((game_loop_step s t rand).round_id = s.round_id →
      phaseRank s.phase ≤ phaseRank (game_loop_step s t rand).phase ∧
      phaseRank (game_loop_step s t rand).phase ≤ phaseRank s.phase + 1 ∧
      (game_loop_step s t rand).crash_point = s.crash_point) ∧
    (∀ c, s.phase = .ended c →
      game_loop_step s t rand = ⟨s.round_id + 1, .waiting, t + 5, round2 rand⟩) := by
  refine ⟨rfl, ?_, ?_, ?_, ?_⟩
  · intro h1 h2
    constructor
    · have e : round2 (3/2 : ℚ) = 3/2 := by norm_num [round2, round_eq]
      calc (3/2 : ℚ) = round2 (3/2) := e.symm
        _ ≤ round2 rand := round2_mono h1
    · have e : round2 (5 : ℚ) = 5 := by norm_num [round2, round_eq]
      calc round2 rand ≤ round2 5 := round2_mono h2
        _ = 5 := e
  · show (db.rounds.map _).map _ = _
    rw [List.map_map]
    have hfun : ((fun r : RoundRow => (r.id, r.crash_point))
          ∘ (fun r => if r.id = rid then { r with status := st } else r))
        = fun r : RoundRow => (r.id, r.crash_point) := by
      funext r
      by_cases h : r.id = rid <;> simp [h]
    rw [hfun]
  · rcases s with ⟨sid, sphase, sstart, scrash⟩
    cases sphase with
    | waiting =>
      intro _
      by_cases h : t < sstart <;> simp [game_loop_step, h, phaseRank]
    | running c =>
      intro _
      by_cases h : c < scrash <;> simp [game_loop_step, h, phaseRank]
    | ended c =>
      intro habs
      exfalso
      simp only [game_loop_step] at habs
      omega
  · intro c hc
    rcases s with ⟨sid, sphase, sstart, scrash⟩
    dsimp only at hc
    subst hc
    rfl

/-- Witness for C9: a concrete creation (on `dbW4` at `t = 2` with draw
1.75), a Waiting → Running step at `t = 5`, and an Ended → new-round step
at `t = 9`. -/
theorem round_lifecycle_witness :
    (create_new_round dbW4 2 (7/4)).rounds
      = dbW4.rounds ++ [⟨nextRoundId dbW4, "waiting", 2 + 5, round2 (7/4)⟩] ∧
    (3/2 ≤ round2 ((7:ℚ)/4) ∧ round2 ((7:ℚ)/4) ≤ 5) ∧
    (phaseRank LoopPhase.waiting
        ≤ phaseRank (game_loop_step ⟨1, .waiting, 0, 2⟩ 5 (7/4)).phase ∧
      phaseRank (game_loop_step ⟨1, .waiting, 0, 2⟩ 5 (7/4)).phase
        ≤ phaseRank LoopPhase.waiting + 1 ∧
      (game_loop_step ⟨1, .waiting, 0, 2⟩ 5 (7/4)).crash_point = (2 : ℚ)) ∧
    game_loop_step ⟨1, .ended (201/100), 0, 2⟩ 9 (7/4)
      = ⟨2, .waiting, 9 + 5, round2 (7/4)⟩ :=
  ⟨(round_lifecycle dbW4 2 (7/4) 0 "x" ⟨1, .waiting, 0, 2⟩ 5).1,
   (round_lifecycle dbW4 2 (7/4) 0 "x" ⟨1, .waiting, 0, 2⟩ 5).2.1
     (by norm_num) (by norm_num),
   (round_lifecycle dbW4 2 (7/4) 0 "x" ⟨1, .waiting, 0, 2⟩ 5).2.2.2.1 rfl,
   (round_lifecycle dbW4 2 (7/4) 0 "x" ⟨1, .ended (201/100), 0, 2⟩ 9).2.2.2.2
     (201/100) rfl⟩

/-- C10: `cashout` never compares the priced coefficient to the round's
`crash_point`: on `dbC10`, whose stored status is still "running" 100 s
after the start although the crash point is 2.0, cashout succeeds, pays
`round(100 * 11, 2) = 1100` and stores coefficient 11 — strictly greater
than the crash point. -/
theorem cashout_ignores_crash_point :
    ∃ r, get_current_round dbC10 = some r ∧ r.status = "running" ∧
      r.crash_point = 2 ∧
      (cashout dbC10 "u" 100).1 = .ok 1100 ∧
      ∃ b ∈ (cashout dbC10 "u" 100).2.bets,
        b.user_id = "u" ∧ b.round_id = 1 ∧ b.cashed_out = true ∧
        b.coefficient = round2 (engineCoefficient 0 100) ∧
        r.crash_point < b.coefficient := by
  refine ⟨⟨1, "running", 0, 2⟩, rfl, rfl, rfl, ?_, ?_⟩
  · norm_num [cashout, get_current_round, dbC10, round2, round_eq]
  · refine ⟨⟨"u", 100, 1, true, 11⟩, ?_, rfl, rfl, rfl, ?_, ?_⟩
    · norm_num [cashout, get_current_round, dbC10, round2, round_eq]
    · norm_num [engineCoefficient, round2, round_eq]
    · norm_num

end Aviator
